import Mathlib

set_option maxHeartbeats 1000000

/-!
Shallow embedding of yt's `field_info_container.py`: the derived-field
registry (`FieldInfoContainer`), field specifications (`DerivedField`),
the validators, and the dependency-detection probe (`FieldDetector`).
Numpy arrays are modelled as rational-valued index functions paired with
their dimensions; numpy's random jitter and float `sqrt` are abstract
parameters of the evaluation environment.  Field-computation closures are
deep-embedded as programs (`FProg`) whose only effects are reads of other
fields and of field parameters, so that the probe's recursive
`__missing__` resolution can be given an executable, fuel-indexed
semantics.
-/

namespace YtField

/-- Values held by a data context: 3-d cubic grid arrays, flat 1-d
arrays, particle arrays of shape `(np,)` or `(np, 3)`, and scalars.
Entries are rationals standing in for the floats of the source. -/
inductive Val where
  | grid3 (n : Nat) (f : Nat → Nat → Nat → ℚ)
  | flat1 (n : Nat) (f : Nat → ℚ)
  | part1 (np : Nat) (f : Nat → ℚ)
  | part2 (np : Nat) (f : Nat → Nat → ℚ)
  | scal (q : ℚ)

/-- A rank-3 numpy ndarray: dimensions plus an index function. -/
structure NArr where
  d0 : Nat
  d1 : Nat
  d2 : Nat
  f : Nat → Nat → Nat → ℚ

/-- Basic slice `a[s0 : d0 - e0, s1 : d1 - e1, s2 : d2 - e2]`: each
axis drops `s` cells at the front and `e` at the back. -/
def NArr.slice (a : NArr) (s0 e0 s1 e1 s2 e2 : Nat) : NArr :=
  ⟨a.d0 - s0 - e0, a.d1 - s1 - e1, a.d2 - s2 - e2,
   fun i j k => a.f (i + s0) (j + s1) (k + s2)⟩

/-- Elementwise subtraction (operands have equal shapes at all uses). -/
def NArr.sub (a b : NArr) : NArr :=
  ⟨a.d0, a.d1, a.d2, fun i j k => a.f i j k - b.f i j k⟩

/-- In-place division by a scalar, `a /= q`. -/
def NArr.divs (a : NArr) (q : ℚ) : NArr :=
  ⟨a.d0, a.d1, a.d2, fun i j k => a.f i j k / q⟩

/-- `np.zeros((d0, d1, d2))`. -/
def NArr.zeros (d0 d1 d2 : Nat) : NArr :=
  ⟨d0, d1, d2, fun _ _ _ => 0⟩

/-- Slice assignment `g[s0 : d0 - e0, s1 : d1 - e1, s2 : d2 - e2] = src`. -/
def NArr.setSlice (g : NArr) (s0 e0 s1 e1 s2 e2 : Nat) (src : NArr) : NArr :=
  ⟨g.d0, g.d1, g.d2, fun i j k =>
    if s0 ≤ i ∧ i < g.d0 - e0 ∧ s1 ≤ j ∧ j < g.d1 - e1 ∧ s2 ≤ k ∧ k < g.d2 - e2
    then src.f (i - s0) (j - s1) (k - s2)
    else g.f i j k⟩

/-- `np.power(a, 2)` elementwise. -/
def NArr.pow2 (a : NArr) : NArr :=
  ⟨a.d0, a.d1, a.d2, fun i j k => a.f i j k ^ 2⟩

/-- Elementwise addition (operands have equal shapes at all uses). -/
def NArr.add (a b : NArr) : NArr :=
  ⟨a.d0, a.d1, a.d2, fun i j k => a.f i j k + b.f i j k⟩

/-- `np.sqrt` elementwise, with the float square root kept abstract. -/
def NArr.sqrtMap (sq : ℚ → ℚ) (a : NArr) : NArr :=
  ⟨a.d0, a.d1, a.d2, fun i j k => sq (a.f i j k)⟩

/-- The `ValidationException` family (`NeedsGridType`,
`NeedsOriginalGrid`, `NeedsDataField`, `NeedsProperty`,
`NeedsParameter`), each carrying its payload. -/
inductive VException where
  | needsGridType (ghost_zones : Nat) (fields : List String)
  | needsOriginalGrid
  | needsDataField (missing : List String)
  | needsProperty (missing : List String)
  | needsParameter (missing : List String)
deriving DecidableEq

/-- The validator classes: `ValidateParameter`, `ValidateDataField`,
`ValidateProperty`, `ValidateSpatial`, `ValidateGridType`. -/
inductive FieldValidator where
  | param (parameters : List String)
  | dataField (fields : List String)
  | property (props : List String)
  | spatial (ghost_zones : Nat) (fields : List String)
  | gridType

/-- The duck-typed capability surface a validator consults on a data
context: whether the context is a `FieldDetector` probe, the `_spatial`
flag, `_num_ghost_zones`, the hierarchy's on-disk field list,
`has_field_parameter`, the attribute set (for `hasattr`), and
`_type_name`. -/
structure DataCtx where
  isDetector : Bool
  spatial : Bool
  numGhostZones : Nat
  fieldList : List String
  hasParam : String → Bool
  attrs : List String
  typeName : Option String

/-- `__call__` of a single validator: `none` on success, otherwise the
raised signal. -/
def runValidator : FieldValidator → DataCtx → Option VException
  | .param ps, c =>
      let dh := ps.filter (fun p => !c.hasParam p)
      if dh = [] then none else some (.needsParameter dh)
  | .dataField fs, c =>
      if c.isDetector then none
      else
        let dh := fs.filter (fun f => !c.fieldList.contains f)
        if dh = [] then none else some (.needsDataField dh)
  | .property ps, c =>
      let dh := ps.filter (fun p => !c.attrs.contains p)
      if dh = [] then none else some (.needsProperty dh)
  | .spatial g fs, c =>
      if !c.spatial then some (.needsGridType g fs)
      else if g ≤ c.numGhostZones then none
      else some (.needsGridType g fs)
  | .gridType, c =>
      if c.isDetector then none
      else if c.typeName = some "grid" then none
      else some .needsOriginalGrid

/-- `DerivedField.check_available`: run the validators in declared
order; the first failure's signal propagates. -/
def checkAvailable : List FieldValidator → DataCtx → Option VException
  | [], _ => none
  | v :: vs, c =>
      match runValidator v c with
      | some e => some e
      | none => checkAvailable vs c

/-- Deep-embedded field-computation closure.  Its effects are limited to
`data[key]` reads (`get`) and `data.get_field_parameter` calls
(`getParam`); `raiseErr` models a python exception raised inside the
closure (e.g. a numpy shape error).  Closures of the source always
return an array, so `ret` carries a `Val` (a `None`-returning closure is
outside this embedding). -/
inductive FProg where
  | ret (v : Val)
  | raiseErr (msg : String)
  | get (key : String) (k : Val → FProg)
  | getParam (p : String) (k : Val → FProg)

/-- `DerivedField`: name, closure (`none` models the `NullFunc`
sentinel), metadata and the ordered validator list. -/
structure DerivedField where
  name : String
  func : Option FProg
  take_log : Bool
  validators : List FieldValidator
  particle_type : Bool
  units : String
  display_name : Option String

/-- `FieldInfoContainer`: the local `dict` entries plus the optional
fallback registry (`fallback = None` is the `base` constructor). -/
inductive FieldInfoContainer where
  | base (entries : List (String × DerivedField))
  | withFallback (entries : List (String × DerivedField)) (fb : FieldInfoContainer)

namespace FieldInfoContainer

/-- The local `dict` entries. -/
def entries : FieldInfoContainer → List (String × DerivedField)
  | .base es => es
  | .withFallback es _ => es

/-- The `fallback` attribute. -/
def fallback? : FieldInfoContainer → Option FieldInfoContainer
  | .base _ => none
  | .withFallback _ fb => some fb

end FieldInfoContainer

/-- Association-list lookup, modelling a python `dict` probe. -/
def assocFind {α : Type} (k : String) : List (String × α) → Option α
  | [] => none
  | kv :: rest => if kv.1 = k then some kv.2 else assocFind k rest

/-- Association-list update, modelling `d[k] = v`: replaces an existing
binding in place, otherwise appends. -/
def dictInsert {α : Type} (k : String) (v : α) : List (String × α) → List (String × α)
  | [] => [(k, v)]
  | kv :: rest => if kv.1 = k then (k, v) :: rest else kv :: dictInsert k v rest

namespace FieldInfoContainer

/-- The purely local `dict` lookup (no fallback). -/
def lookupLocal (R : FieldInfoContainer) (k : String) : Option DerivedField :=
  assocFind k R.entries

/-- `__getitem__` together with `__missing__` (lines 120-123): local
hit, else delegate to the fallback, else `KeyError`. -/
def getField : FieldInfoContainer → String → Except String DerivedField
  | .base es, k =>
      match assocFind k es with
      | some f => .ok f
      | none => .error ("No field named " ++ k)
  | .withFallback es fb, k =>
      match assocFind k es with
      | some f => .ok f
      | none => fb.getField k

/-- Option view of `getField`, used by the detector: `item in FI`
followed by `FI[item]` amounts to this (see
`containsKey_eq_isSome_lookup?` and `getField_ok_iff_lookup?`). -/
def lookup? (R : FieldInfoContainer) (k : String) : Option DerivedField :=
  (R.getField k).toOption

/-- `__contains__` (lines 134-137): local membership, else recurse into
the fallback. -/
def containsKey : FieldInfoContainer → String → Bool
  | .base es, k => (assocFind k es).isSome
  | .withFallback es fb, k => (assocFind k es).isSome || fb.containsKey k

/-- `has_key` (lines 114-118): `key in self` (which is already
fallback-aware through `__contains__`), else recurse into the
fallback. -/
def hasKey : FieldInfoContainer → String → Bool
  | .base es, k => if containsKey (.base es) k then true else false
  | .withFallback es fb, k =>
      if containsKey (.withFallback es fb) k then true else fb.hasKey k

/-- `__iter__` (lines 139-143): yield the local keys, then everything
the fallback yields (duplicates preserved). -/
def iterKeys : FieldInfoContainer → List String
  | .base es => es.map Prod.fst
  | .withFallback es fb => es.map Prod.fst ++ iterKeys fb

/-- `self[name] = spec` on the local dict. -/
def setEntry (R : FieldInfoContainer) (k : String) (f : DerivedField) : FieldInfoContainer :=
  match R with
  | .base es => .base (dictInsert k f es)
  | .withFallback es fb => .withFallback (dictInsert k f es) fb

end FieldInfoContainer

/-- `FieldDetector` state: side `nd`, flat flag, `_num_ghost_zones`,
the materialized values (`defaultdict` contents), the `requested` and
`requested_parameters` logs.  `rawReads` is ghost instrumentation, not
python state: it records each raw-field synthesis event (the
`_read_data` calls and the particle-placeholder branch), including those
of nested ghost-zone probes, so the dependency-log property can be
stated. -/
structure Det where
  nd : Nat
  flat : Bool
  numGhostZones : Nat
  store : List (String × Val)
  requested : List String
  requestedParameters : List String
  rawReads : List String

/-- `FieldDetector.__init__(nd, pf=None, flat)`. -/
def detInit (nd : Nat) (flat : Bool) : Det :=
  { nd := nd, flat := flat, numGhostZones := 0,
    store := [], requested := [], requestedParameters := [], rawReads := [] }

/-- The attribute names a `FieldDetector` instance exposes (class
attributes, `__init__` fields, properties and methods), consulted by
`ValidateProperty`'s `hasattr`. -/
def detAttrs : List String :=
  ["Level", "NumberOfParticles", "_read_exception", "_id_offset",
   "nd", "flat", "_spatial", "ActiveDimensions", "shape", "size",
   "LeftEdge", "RightEdge", "dds", "pf", "hierarchy", "requested",
   "requested_parameters", "_num_ghost_zones", "id", "fp_units",
   "fcoords", "icoords", "ires", "fwidth", "deposit", "_reshape_vals",
   "_read_data", "get_field_parameter", "has_field_parameter"]

/-- The capability view of a probe: `isinstance(data, FieldDetector)`
holds, `_spatial = not flat`, `has_field_parameter` always returns
`True` (lines 357-358).  The fake hierarchy has no `field_list`, but the
detector branch of `ValidateDataField` never consults it. -/
def Det.toCtx (d : Det) : DataCtx :=
  { isDetector := true, spatial := !d.flat, numGhostZones := d.numGhostZones,
    fieldList := [], hasParam := fun _ => true, attrs := detAttrs,
    typeName := none }

/-- Value lookup in the detector's materialized store. -/
def storeFind? (d : Det) (k : String) : Option Val :=
  assocFind k d.store

/-- The log-merging loops of `__missing__` (lines 294-298): append each
element of `ys` not already present in `xs`, preserving first-seen
order. -/
def mergeNoDup (xs ys : List String) : List String :=
  ys.foldl (fun acc i => if i ∈ acc then acc else acc ++ [i]) xs

/-- `.flat[0]`: first element in C order. -/
def flat0 : Val → ℚ
  | .grid3 _ f => f 0 0 0
  | .flat1 _ f => f 0
  | .part1 _ f => f 0
  | .part2 _ f => f 0 0
  | .scal q => q

/-- `vv[ngz:-ngz, ngz:-ngz, ngz:-ngz]` (line 293): defined on cubic
grids; three-index slicing of anything else is an `IndexError`. -/
def trim3 (g : Nat) : Val → Option Val
  | .grid3 n f => some (.grid3 (n - 2 * g) (fun i j k => f (i + g) (j + g) (k + g)))
  | _ => none

/-- `vv.ravel()`, C order. -/
def ravel : Val → Val
  | .grid3 n f => .flat1 (n ^ 3) (fun i => f (i / (n * n)) (i / n % n) (i % n))
  | .flat1 n f => .flat1 n f
  | .part1 np f => .part1 np f
  | .part2 np f => .flat1 (np * 3) (fun i => f (i / 3) (i % 3))
  | .scal q => .flat1 1 (fun _ => q)

/-- Evaluation environment: the module-level `FieldInfo` registry the
fake parameter file falls back to, the `1e-4 * np.random.random`
jitter of the defaultdict factories, and the random draws of
`get_field_parameter` — randomness is abstracted into fixed
functions. -/
structure Env where
  FI : FieldInfoContainer
  jit : Nat → Nat → Nat → ℚ
  jitF : Nat → ℚ
  prand : Nat → ℚ

/-- Outcome of one resolution: a value, a propagating
`ValidationException`, a plain python error (`KeyError`,
`RuntimeError`, `IndexError`), or fuel exhaustion. -/
inductive Outcome where
  | ok (v : Val)
  | exc (e : VException)
  | err (msg : String)
  | spin

/-- `get_field_parameter` (lines 345-352): log the request; return a
random small 3-vector for `bulk_velocity`/`center`/`normal`, `0` for
`axis`, `0.0` otherwise. -/
def detGetFieldParameter (env : Env) (p : String) (d : Det) : Val × Det :=
  let d1 : Det := { d with requestedParameters := d.requestedParameters ++ [p] }
  let v : Val :=
    if p = "bulk_velocity" ∨ p = "center" ∨ p = "normal" then .flat1 3 env.prand
    else if p = "axis" then .scal 0
    else .scal 0
  (v, d1)

/-- `_read_data` (lines 326-337): log the request, look the field up in
the module registry (`KeyError` on a miss), synthesize a flat particle
placeholder for particle fields (logging a second time, line 333), and
otherwise invoke the defaultdict factory — ones plus jitter, of cubic
or flat shape — which also stores the raw value.  The `YTArray` unit
wrapper is dropped. -/
def readData (env : Env) (item : String) (d : Det) : Outcome × Det :=
  let d1 : Det := { d with requested := d.requested ++ [item],
                           rawReads := d.rawReads ++ [item] }
  match env.FI.lookup? item with
  | none => (.err "KeyError", d1)
  | some finfo =>
      if finfo.particle_type then
        (.ok (.part1 1 (fun _ => 1)),
         { d1 with requested := d1.requested ++ [item] })
      else
        let rawv : Val :=
          if d1.flat then .flat1 (d1.nd ^ 3) (fun i => 1 + env.jitF i)
          else .grid3 d1.nd (fun i j k => 1 + env.jit i j k)
        (.ok rawv, { d1 with store := dictInsert item rawv d1.store })

/-- The fall-through of `__missing__` (lines 318-321): log the request,
read the data if not already present, store it, and return the stored
value. -/
def rawResolve (env : Env) (item : String) (d : Det) : Outcome × Det :=
  let d1 : Det := { d with requested := d.requested ++ [item] }
  match storeFind? d1 item with
  | some v => (.ok v, d1)
  | none =>
      match readData env item d1 with
      | (.ok v, d2) => (.ok v, { d2 with store := dictInsert item v d2.store })
      | r => r

/-- The mutually recursive entry points of the probe machinery:
`data[key]` (`getItem`), `FieldDetector.__missing__` (`missing`),
`DerivedField.__call__` (`fcall`) and closure execution (`prog`). -/
inductive Call where
  | getItem (key : String)
  | missing (key : String)
  | fcall (finfo : DerivedField)
  | prog (p : FProg)

/-- Fuel-indexed semantics of the probe machinery, for a fake parameter
file (no `field_info` attribute, so keys are bare strings and the
module registry `env.FI` is consulted).

`getItem`: a `defaultdict` access — stored hit, else `__missing__`.

`missing` (lines 263-321): resolve the spec; for a non-`NullFunc`
closure call `finfo(self)`; on `NeedsGridType(ngz, …)` build a nested
cubic probe of side `nd + ngz*2` carrying `ngz` ghost zones, re-run,
trim the outer `ngz` cells when `ngz > 0`, merge the nested logs back
without duplicating existing entries, and store; a `NullFunc` particle
field gets a ones placeholder of shape `(1,3)` for the vector names and
`(1,)` otherwise; anything else falls through to the raw read.

`fcall` (lines 504-516): run the validators, snapshot the key set, run
the closure, then delete every key added during the call.

`prog`: closure execution over the detector. -/
def step (env : Env) : Nat → Call → Det → Outcome × Det
  | 0, _, d => (.spin, d)
  | fuel+1, .getItem key, d =>
      match storeFind? d key with
      | some v => (.ok v, d)
      | none => step env fuel (.missing key) d
  | fuel+1, .missing item, d =>
      match env.FI.lookup? item with
      | some finfo =>
          match finfo.func with
          | some _ =>
              match step env fuel (.fcall finfo) d with
              | (.exc (.needsGridType ngz _), d1) =>
                  let nfd0 : Det := { detInit (d1.nd + ngz * 2) false with numGhostZones := ngz }
                  (match step env fuel (.fcall finfo) nfd0 with
                   | (.ok vv, nfd1) =>
                       (match (if 0 < ngz then trim3 ngz vv else some vv) with
                        | some w =>
                            let d2 : Det := { d1 with
                              requested := mergeNoDup d1.requested nfd1.requested,
                              requestedParameters :=
                                mergeNoDup d1.requestedParameters nfd1.requestedParameters,
                              rawReads := d1.rawReads ++ nfd1.rawReads }
                            let w' := if d2.flat then ravel w else w
                            (.ok w', { d2 with store := dictInsert item w' d2.store })
                        | none => (.err "IndexError", d1))
                   | (o2, _) => (o2, d1))
              | (.ok vv, d1) =>
                  let w := if d1.flat then ravel vv else vv
                  (.ok w, { d1 with store := dictInsert item w d1.store })
              | (o, d1) => (o, d1)
          | none =>
              if finfo.particle_type then
                let v : Val :=
                  if item = "Coordinates" ∨ item = "Velocities" ∨ item = "Velocity"
                  then .part2 1 (fun _ _ => 1) else .part1 1 (fun _ => 1)
                (.ok v, { d with store := dictInsert item v d.store,
                                 requested := d.requested ++ [item],
                                 rawReads := d.rawReads ++ [item] })
              else rawResolve env item d
      | none => rawResolve env item d
  | fuel+1, .fcall finfo, d =>
      match checkAvailable finfo.validators d.toCtx with
      | some e => (.exc e, d)
      | none =>
          match finfo.func with
          | none => (.err "RuntimeError", d)
          | some p =>
              let originalFields := d.store.map Prod.fst
              match step env fuel (.prog p) d with
              | (.ok v, d1) =>
                  (.ok v,
                   { d1 with store := d1.store.filter (fun kv => originalFields.contains kv.1) })
              | r => r
  | fuel+1, .prog p, d =>
      match p with
      | .ret v => (.ok v, d)
      | .raiseErr m => (.err m, d)
      | .get key k =>
          match step env fuel (.getItem key) d with
          | (.ok v, d1) => step env fuel (.prog (k v)) d1
          | r => r
      | .getParam pname k =>
          let vd := detGetFieldParameter env pname d
          step env fuel (.prog (k vd.1)) vd.2

/-- Body of `_gradx` (lines 63-68) after the two context reads: slice,
subtract, divide by `2*dx`, embed into a zero array of the field's
shape.  Three-index slicing of a non-cubic value is an `IndexError`. -/
def gradxCompute (vF vdx : Val) : FProg :=
  match vF with
  | .grid3 n f =>
      let a : NArr := ⟨n, n, n, f⟩
      let grad := (a.slice 2 0 1 1 1 1).sub (a.slice 0 2 1 1 1 1)
      let grad2 := grad.divs (2 * flat0 vdx)
      let g := (NArr.zeros n n n).setSlice 1 1 1 1 1 1 grad2
      .ret (.grid3 n g.f)
  | _ => .raiseErr "IndexError"

/-- Body of `_grady` (lines 70-75). -/
def gradyCompute (vF vdy : Val) : FProg :=
  match vF with
  | .grid3 n f =>
      let a : NArr := ⟨n, n, n, f⟩
      let grad := (a.slice 1 1 2 0 1 1).sub (a.slice 1 1 0 2 1 1)
      let grad2 := grad.divs (2 * flat0 vdy)
      let g := (NArr.zeros n n n).setSlice 1 1 1 1 1 1 grad2
      .ret (.grid3 n g.f)
  | _ => .raiseErr "IndexError"

/-- Body of `_gradz` (lines 77-82). -/
def gradzCompute (vF vdz : Val) : FProg :=
  match vF with
  | .grid3 n f =>
      let a : NArr := ⟨n, n, n, f⟩
      let grad := (a.slice 1 1 1 1 2 0).sub (a.slice 1 1 1 1 0 2)
      let grad2 := grad.divs (2 * flat0 vdz)
      let g := (NArr.zeros n n n).setSlice 1 1 1 1 1 1 grad2
      .ret (.grid3 n g.f)
  | _ => .raiseErr "IndexError"

/-- `_gradx` as a closure: read the base field, read `dx`, compute. -/
def gradxProg (field : String) : FProg :=
  .get field fun vF => .get "dx" fun vdx => gradxCompute vF vdx

/-- `_grady` as a closure. -/
def gradyProg (field : String) : FProg :=
  .get field fun vF => .get "dy" fun vdy => gradyCompute vF vdy

/-- `_gradz` as a closure. -/
def gradzProg (field : String) : FProg :=
  .get field fun vF => .get "dz" fun vdz => gradzCompute vF vdz

/-- Body of `_grad` (lines 97-102): square the three partial
derivatives, sum, take the (abstract float) square root. -/
def gradMagCompute (sq : ℚ → ℚ) (vx vy vz : Val) : FProg :=
  match vx, vy, vz with
  | .grid3 n1 fx, .grid3 n2 fy, .grid3 n3 fz =>
      let a := NArr.pow2 ⟨n1, n1, n1, fx⟩
      let b := NArr.pow2 ⟨n2, n2, n2, fy⟩
      let c := NArr.pow2 ⟨n3, n3, n3, fz⟩
      let norm := NArr.sqrtMap sq ((a.add b).add c)
      .ret (.grid3 norm.d0 norm.f)
  | _, _, _ => .raiseErr "IndexError"

/-- `_grad` as a closure: read the three sibling gradient fields,
compute the magnitude. -/
def gradMagProg (sq : ℚ → ℚ) (field : String) : FProg :=
  .get ("Grad_" ++ field ++ "_x") fun a =>
  .get ("Grad_" ++ field ++ "_y") fun b =>
  .get ("Grad_" ++ field ++ "_z") fun c => gradMagCompute sq a b c

/-- One axis entry installed by `add_grad`: `take_log=False`, a
`ValidateSpatial(1, [field])` validator, the axis display name. -/
def gradAxSpec (field nm ax : String) (dn : Option String) (p : FProg) : DerivedField :=
  { name := nm, func := some p, take_log := false,
    validators := [.spatial 1 [field]], particle_type := false, units := "",
    display_name := some (match dn with
      | some s => s ++ "\\_" ++ ax
      | none => "\\partial " ++ field ++ "/\\partial " ++ ax) }

/-- The magnitude entry installed by `add_grad`: `take_log=False`, no
validators, gradient-norm display name by default. -/
def gradMagSpec (field : String) (dn : Option String) (sq : ℚ → ℚ) : DerivedField :=
  { name := "Grad_" ++ field, func := some (gradMagProg sq field), take_log := false,
    validators := [], particle_type := false, units := "",
    display_name := some (dn.getD ("\\Vert\\nabla " ++ field ++ "\\Vert")) }

/-- `FieldInfoContainer.add_grad` (lines 54-112): install the three
axis fields `Grad_F_x/y/z` (the `for ax in "xyz"` loop, unrolled), then
the magnitude field `Grad_F`.  Keyword arguments other than
`display_name` are not modelled. -/
def addGrad (sq : ℚ → ℚ) (R : FieldInfoContainer) (field : String)
    (displayName : Option String) : FieldInfoContainer :=
  let R1 := R.setEntry ("Grad_" ++ field ++ "_x")
    (gradAxSpec field ("Grad_" ++ field ++ "_x") "x" displayName (gradxProg field))
  let R2 := R1.setEntry ("Grad_" ++ field ++ "_y")
    (gradAxSpec field ("Grad_" ++ field ++ "_y") "y" displayName (gradyProg field))
  let R3 := R2.setEntry ("Grad_" ++ field ++ "_z")
    (gradAxSpec field ("Grad_" ++ field ++ "_z") "z" displayName (gradzProg field))
  R3.setEntry ("Grad_" ++ field) (gradMagSpec field displayName sq)

/-- `data[key]` on the probe. -/
def detGetItem (env : Env) (fuel : Nat) (key : String) (d : Det) : Outcome × Det :=
  step env fuel (.getItem key) d

/-- `FieldDetector.__missing__`. -/
def detMissing (env : Env) (fuel : Nat) (key : String) (d : Det) : Outcome × Det :=
  step env fuel (.missing key) d

/-- `DerivedField.__call__` on the probe. -/
def fieldCall (env : Env) (fuel : Nat) (finfo : DerivedField) (d : Det) : Outcome × Det :=
  step env fuel (.fcall finfo) d

/-- Closure execution on the probe. -/
def runProg (env : Env) (fuel : Nat) (p : FProg) (d : Det) : Outcome × Det :=
  step env fuel (.prog p) d

end YtField

namespace YtField

/-! ### Association-list and merge lemmas -/

theorem assocFind_dictInsert {α : Type} (k k' : String) (v : α)
    (l : List (String × α)) :
    assocFind k (dictInsert k' v l) = if k' = k then some v else assocFind k l := by
  induction l with
  | nil => simp [dictInsert, assocFind]
  | cons kv rest ih =>
      by_cases h : kv.1 = k'
      · simp only [dictInsert, if_pos h, assocFind, h]
        by_cases hk : k' = k <;> simp [hk]
      · simp only [dictInsert, if_neg h, assocFind, ih]
        by_cases h2 : kv.1 = k
        · have hk : ¬ k' = k := fun hh => h (hh ▸ h2)
          simp [h2, hk]
        · simp [h2]

theorem map_fst_dictInsert {α : Type} (k : String) (v : α) (l : List (String × α)) :
    (dictInsert k v l).map Prod.fst
      = if (assocFind k l).isSome then l.map Prod.fst else l.map Prod.fst ++ [k] := by
  induction l with
  | nil => simp [dictInsert, assocFind]
  | cons kv rest ih =>
      by_cases h : kv.1 = k
      · simp [dictInsert, h, assocFind]
      · simp only [dictInsert, if_neg h, assocFind, List.map_cons, ih]
        by_cases h2 : (assocFind k rest).isSome <;> simp [h, h2]

theorem mergeNoDup_extends (xs ys : List String) :
    ∃ t, mergeNoDup xs ys = xs ++ t := by
  induction ys generalizing xs with
  | nil => exact ⟨[], by simp [mergeNoDup]⟩
  | cons y ys ih =>
      have step1 : mergeNoDup xs (y :: ys)
          = mergeNoDup (if y ∈ xs then xs else xs ++ [y]) ys := by
        simp [mergeNoDup, List.foldl_cons]
      rcases ih (if y ∈ xs then xs else xs ++ [y]) with ⟨t, ht⟩
      by_cases h : y ∈ xs
      · exact ⟨t, by rw [step1, ht]; simp [h]⟩
      · exact ⟨[y] ++ t, by rw [step1, ht]; simp [h]⟩

theorem mem_mergeNoDup_left (xs ys : List String) (k : String) (h : k ∈ xs) :
    k ∈ mergeNoDup xs ys := by
  rcases mergeNoDup_extends xs ys with ⟨t, ht⟩
  rw [ht]; exact List.mem_append_left t h

theorem mem_mergeNoDup_right (xs ys : List String) (k : String) (h : k ∈ ys) :
    k ∈ mergeNoDup xs ys := by
  induction ys generalizing xs with
  | nil => cases h
  | cons y ys ih =>
      have step1 : mergeNoDup xs (y :: ys)
          = mergeNoDup (if y ∈ xs then xs else xs ++ [y]) ys := by
        simp [mergeNoDup, List.foldl_cons]
      rcases List.mem_cons.1 h with rfl | hmem
      · rw [step1]
        apply mem_mergeNoDup_left
        by_cases hx : k ∈ xs <;> simp [hx]
      · rw [step1]; exact ih _ hmem

theorem mergeNoDup_nodup (xs ys : List String) (h : xs.Nodup) :
    (mergeNoDup xs ys).Nodup := by
  induction ys generalizing xs with
  | nil => simpa [mergeNoDup] using h
  | cons y ys ih =>
      have step1 : mergeNoDup xs (y :: ys)
          = mergeNoDup (if y ∈ xs then xs else xs ++ [y]) ys := by
        simp [mergeNoDup, List.foldl_cons]
      rw [step1]
      by_cases hx : y ∈ xs
      · simpa [hx] using ih xs h
      · refine ih _ ?_
        simp only [hx, if_false]
        simp [List.nodup_append, h, hx]

/-! ### Registry lemmas -/

namespace FieldInfoContainer

theorem getField_ok_iff_lookup? (R : FieldInfoContainer) (k : String)
    (f : DerivedField) : R.getField k = .ok f ↔ R.lookup? k = some f := by
  unfold lookup?
  cases h : R.getField k <;> simp [Except.toOption]

theorem containsKey_eq_isSome_lookup? (R : FieldInfoContainer) (k : String) :
    R.containsKey k = (R.lookup? k).isSome := by
  induction R with
  | base es =>
      unfold lookup? containsKey getField
      cases h : assocFind k es <;> simp [h, Except.toOption]
  | withFallback es fb ih =>
      unfold containsKey
      cases h : assocFind k es
      · simp only [Option.isSome_none, Bool.false_or]
        rw [ih]
        have h2 : FieldInfoContainer.getField (.withFallback es fb) k = fb.getField k := by
          simp only [FieldInfoContainer.getField]
          rw [h]
        unfold lookup?
        rw [h2]
      · unfold lookup? getField
        rw [h]
        simp [Except.toOption]

end FieldInfoContainer

end YtField

namespace YtField

/-- A sample raw-field spec (`NullFunc` sentinel), used in concrete
instantiations of the registry theorems. -/
def rawSpec (nm : String) : DerivedField :=
  { name := nm, func := none, take_log := true, validators := [],
    particle_type := false, units := "", display_name := none }

/-- C6: lookup returns the locally stored spec when the key is present
locally (a local key shadows the fallback chain), otherwise delegates to
the fallback registry; when the key is absent from the registry and its
entire fallback chain, lookup fails with a `KeyError` rather than
returning a default. -/
theorem C6_lookup_shadow_fallback (R : FieldInfoContainer) (k : String) :
    (∀ f, R.lookupLocal k = some f → R.getField k = .ok f) ∧
    (∀ fb, R.fallback? = some fb → R.lookupLocal k = none →
        R.getField k = fb.getField k) ∧
    (R.containsKey k = false →
        R.getField k = .error ("No field named " ++ k)) := by
  refine ⟨?_, ?_, ?_⟩
  · intro f h
    cases R <;>
      simp only [FieldInfoContainer.lookupLocal, FieldInfoContainer.entries] at h <;>
      simp [FieldInfoContainer.getField, h]
  · intro fb hfb hloc
    cases R with
    | base es => cases hfb
    | withFallback es fb2 =>
        simp only [FieldInfoContainer.fallback?, Option.some.injEq] at hfb
        subst hfb
        simp only [FieldInfoContainer.lookupLocal, FieldInfoContainer.entries] at hloc
        simp [FieldInfoContainer.getField, hloc]
  · induction R with
    | base es =>
        intro hc
        cases hh : assocFind k es with
        | some f => simp [FieldInfoContainer.containsKey, hh] at hc
        | none => simp [FieldInfoContainer.getField, hh]
    | withFallback es fb ih =>
        intro hc
        cases hh : assocFind k es with
        | some f => simp [FieldInfoContainer.containsKey, hh] at hc
        | none =>
            simp only [FieldInfoContainer.containsKey, hh, Option.isSome_none,
              Bool.false_or] at hc
            simp only [FieldInfoContainer.getField, hh]
            exact ih hc

/-- C6 witness: on a registry with an empty local dict and a fallback
holding key `"a"`, lookup delegates to the fallback. -/
theorem C6_witness :
    (FieldInfoContainer.lookupLocal
        (.withFallback [] (.base [("a", rawSpec "a")])) "a" = none) ∧
    FieldInfoContainer.getField
        (.withFallback [] (.base [("a", rawSpec "a")])) "a"
      = FieldInfoContainer.getField (.base [("a", rawSpec "a")]) "a" :=
  ⟨rfl, (C6_lookup_shadow_fallback _ "a").2.1 _ rfl rfl⟩

/-- C7: `contains(R, k)` holds iff `k` is a direct local key of `R` or
the fallback (recursively) contains it; with no fallback it coincides
with direct membership; and `has_key` agrees with `__contains__`. -/
theorem C7_contains_local_or_fallback (R : FieldInfoContainer) (k : String) :
    (∀ fb, R.fallback? = some fb →
        (R.containsKey k = true ↔
          ((R.lookupLocal k).isSome = true ∨ fb.containsKey k = true))) ∧
    (R.fallback? = none → R.containsKey k = (R.lookupLocal k).isSome) ∧
    R.hasKey k = R.containsKey k := by
  refine ⟨?_, ?_, ?_⟩
  · intro fb hfb
    cases R with
    | base es => cases hfb
    | withFallback es fb2 =>
        simp only [FieldInfoContainer.fallback?, Option.some.injEq] at hfb
        subst hfb
        simp [FieldInfoContainer.containsKey, FieldInfoContainer.lookupLocal,
          FieldInfoContainer.entries, Bool.or_eq_true]
  · intro hfb
    cases R with
    | base es =>
        simp [FieldInfoContainer.containsKey, FieldInfoContainer.lookupLocal,
          FieldInfoContainer.entries]
    | withFallback es fb2 => cases hfb
  · induction R with
    | base es =>
        simp only [FieldInfoContainer.hasKey]
        by_cases h : FieldInfoContainer.containsKey (.base es) k = true <;> simp [h]
    | withFallback es fb ih =>
        cases hcb : FieldInfoContainer.containsKey (.withFallback es fb) k with
        | true => simp [FieldInfoContainer.hasKey, hcb]
        | false =>
            have h2 := hcb
            simp only [FieldInfoContainer.containsKey, Bool.or_eq_false_iff] at h2
            simp [FieldInfoContainer.hasKey, hcb, ih, h2.2]

/-- C7 witness: registry with empty local dict and a fallback holding
`"a"`. -/
theorem C7_witness :
    (FieldInfoContainer.fallback?
        (.withFallback ([] : List (String × DerivedField)) (.base [("a", rawSpec "a")]))
      = some (.base [("a", rawSpec "a")])) ∧
    (FieldInfoContainer.containsKey
        (.withFallback [] (.base [("a", rawSpec "a")])) "a" = true ↔
      ((FieldInfoContainer.lookupLocal
          (.withFallback [] (.base [("a", rawSpec "a")])) "a").isSome = true
        ∨ FieldInfoContainer.containsKey (.base [("a", rawSpec "a")]) "a" = true)) :=
  ⟨rfl, (C7_contains_local_or_fallback _ "a").1 _ rfl⟩

/-- C8: iteration over a registry with a fallback yields exactly the
local keys first followed by everything the fallback yields, so a key
present in both appears twice (duplicates are preserved). -/
theorem C8_iter_local_then_fallback (es : List (String × DerivedField))
    (fb : FieldInfoContainer) (k : String) :
    FieldInfoContainer.iterKeys (.withFallback es fb)
      = es.map Prod.fst ++ fb.iterKeys ∧
    ((es.map Prod.fst).Nodup →
      (FieldInfoContainer.iterKeys (.withFallback es fb)).count k
        = (if k ∈ es.map Prod.fst then 1 else 0) + (fb.iterKeys).count k) := by
  constructor
  · rfl
  · intro hnd
    rw [show FieldInfoContainer.iterKeys (.withFallback es fb)
        = es.map Prod.fst ++ fb.iterKeys from rfl]
    rw [List.count_append]
    congr 1
    by_cases h : k ∈ es.map Prod.fst
    · simp [h, List.count_eq_one_of_mem hnd h]
    · simp [h, List.count_eq_zero_of_not_mem h]

/-- C8 witness: key `"a"` shadowed in both local dict and fallback is
yielded twice (count 1 + 1). -/
theorem C8_witness :
    ((([("a", rawSpec "a")] : List (String × DerivedField)).map Prod.fst).Nodup) ∧
    (FieldInfoContainer.iterKeys
        (.withFallback [("a", rawSpec "a")] (.base [("a", rawSpec "a")]))).count "a"
      = (if "a" ∈ ([("a", rawSpec "a")] : List (String × DerivedField)).map Prod.fst
          then 1 else 0)
        + (FieldInfoContainer.iterKeys (.base [("a", rawSpec "a")])).count "a" :=
  ⟨by simp, (C8_iter_local_then_fallback [("a", rawSpec "a")] _ "a").2 (by simp)⟩

end YtField

namespace YtField

/-! ### State evolution of the probe -/

theorem assocFind_eq_none_iff {α : Type} (k : String) (l : List (String × α)) :
    assocFind k l = none ↔ k ∉ l.map Prod.fst := by
  induction l with
  | nil => simp [assocFind]
  | cons kv rest ih =>
      by_cases h : kv.1 = k
      · simp [assocFind, h]
      · have hne : ¬ k = kv.1 := fun hh => h hh.symm
        simp [assocFind, h, ih, hne]

/-- How the detector state may change across one probe operation: store
keys are extended only with fresh keys, the two logs grow by appending,
and the raw-read/request-log containment is transported. -/
def DetEvolves (d d' : Det) : Prop :=
  (∃ t, d'.store.map Prod.fst = d.store.map Prod.fst ++ t ∧
      ∀ k ∈ t, k ∉ d.store.map Prod.fst) ∧
  (∃ r, d'.requested = d.requested ++ r) ∧
  (∃ p, d'.requestedParameters = d.requestedParameters ++ p) ∧
  ((∀ k ∈ d.rawReads, k ∈ d.requested) → ∀ k ∈ d'.rawReads, k ∈ d'.requested)

theorem DetEvolves.rfl (d : Det) : DetEvolves d d :=
  ⟨⟨[], by simp, by simp⟩, ⟨[], by simp⟩, ⟨[], by simp⟩, fun h => h⟩

theorem DetEvolves.trans {d d' d'' : Det}
    (h1 : DetEvolves d d') (h2 : DetEvolves d' d'') : DetEvolves d d'' := by
  obtain ⟨⟨t1, ht1, hf1⟩, ⟨r1, hr1⟩, ⟨p1, hp1⟩, hraw1⟩ := h1
  obtain ⟨⟨t2, ht2, hf2⟩, ⟨r2, hr2⟩, ⟨p2, hp2⟩, hraw2⟩ := h2
  refine ⟨⟨t1 ++ t2, by rw [ht2, ht1, List.append_assoc], ?_⟩,
          ⟨r1 ++ r2, by rw [hr2, hr1, List.append_assoc]⟩,
          ⟨p1 ++ p2, by rw [hp2, hp1, List.append_assoc]⟩,
          fun h => hraw2 (hraw1 h)⟩
  intro k hk
  rcases List.mem_append.1 hk with h | h
  · exact hf1 k h
  · intro hmem
    exact hf2 k h (by rw [ht1]; exact List.mem_append_left _ hmem)

theorem keys_extend_dictInsert (k : String) (v : Val) (l : List (String × Val)) :
    ∃ t, (dictInsert k v l).map Prod.fst = l.map Prod.fst ++ t ∧
      ∀ x ∈ t, x ∉ l.map Prod.fst := by
  cases he : assocFind k l with
  | some f => exact ⟨[], by simp [map_fst_dictInsert, he], by simp⟩
  | none =>
      refine ⟨[k], by simp [map_fst_dictInsert, he], ?_⟩
      intro x hx
      simp only [List.mem_singleton] at hx
      rw [hx]
      exact (assocFind_eq_none_iff k l).1 he

theorem evolves_store_insert (d : Det) (k : String) (v : Val) :
    DetEvolves d { d with store := dictInsert k v d.store } :=
  ⟨keys_extend_dictInsert k v d.store, ⟨[], by simp⟩, ⟨[], by simp⟩, fun h => h⟩

theorem map_fst_filter_contains (ks : List String) (l : List (String × Val)) :
    (l.filter (fun kv => ks.contains kv.1)).map Prod.fst
      = (l.map Prod.fst).filter (fun x => ks.contains x) := by
  induction l with
  | nil => rfl
  | cons kv rest ih =>
      by_cases h : kv.1 ∈ ks <;> simp [List.filter_cons, h] <;> simpa using ih

theorem filter_contains_self (ks : List String) :
    ks.filter (fun x => ks.contains x) = ks := by
  apply List.filter_eq_self.2
  intro a ha
  simpa using ha

theorem filter_contains_none (ks t : List String) (h : ∀ x ∈ t, x ∉ ks) :
    t.filter (fun x => ks.contains x) = [] := by
  rw [List.filter_eq_nil_iff]
  intro a ha
  simpa using h a ha

theorem evolves_merge_logs (d1 nfd1 : Det)
    (hn : ∀ k ∈ nfd1.rawReads, k ∈ nfd1.requested) :
    DetEvolves d1 { d1 with
      requested := mergeNoDup d1.requested nfd1.requested,
      requestedParameters := mergeNoDup d1.requestedParameters nfd1.requestedParameters,
      rawReads := d1.rawReads ++ nfd1.rawReads } := by
  refine ⟨⟨[], by simp, by simp⟩, mergeNoDup_extends _ _, mergeNoDup_extends _ _, ?_⟩
  intro h k hk
  simp only at hk ⊢
  rcases List.mem_append.1 hk with h1 | h1
  · exact mem_mergeNoDup_left _ _ _ (h k h1)
  · exact mem_mergeNoDup_right _ _ _ (hn k h1)


theorem keys_dictInsert_twice (k : String) (v w : Val) (l : List (String × Val)) :
    (dictInsert k v (dictInsert k w l)).map Prod.fst
      = (dictInsert k w l).map Prod.fst := by
  rw [map_fst_dictInsert]
  have h : assocFind k (dictInsert k w l) = some w := by
    rw [assocFind_dictInsert]; simp
  simp [h]

theorem evolves_rawResolve (env : Env) (item : String) (d : Det) :
    DetEvolves d (rawResolve env item d).2 := by
  simp only [rawResolve]
  cases hsf : storeFind? { d with requested := d.requested ++ [item] } item with
  | some v =>
      simp only [hsf]
      exact ⟨⟨[], by simp, by simp⟩, ⟨[item], Eq.refl _⟩, ⟨[], by simp⟩,
        fun h k hk => List.mem_append_left _ (h k hk)⟩
  | none =>
      simp only [hsf, readData]
      cases hlk : env.FI.lookup? item with
      | none =>
          simp only [hlk]
          refine ⟨⟨[], by simp, by simp⟩, ⟨[item] ++ [item], by simp⟩, ⟨[], by simp⟩, ?_⟩
          intro h k hk
          simp only at hk ⊢
          rcases List.mem_append.1 hk with h1 | h1
          · exact List.mem_append_left _ (List.mem_append_left _ (h k h1))
          · simp only [List.mem_singleton] at h1
            subst h1
            simp
      | some finfo =>
          simp only [hlk]
          by_cases hpt : finfo.particle_type
          · simp only [hpt, if_pos]
            refine ⟨?_, ⟨[item] ++ [item] ++ [item], by simp⟩, ⟨[], by simp⟩, ?_⟩
            · exact keys_extend_dictInsert item (.part1 1 (fun _ => 1)) d.store
            · intro h k hk
              simp only at hk ⊢
              rcases List.mem_append.1 hk with h1 | h1
              · exact List.mem_append_left _ (List.mem_append_left _
                  (List.mem_append_left _ (h k h1)))
              · simp only [List.mem_singleton] at h1
                subst h1
                simp
          · simp [hpt]
            refine ⟨?_, ⟨[item] ++ [item], by simp⟩, ⟨[], by simp⟩, ?_⟩
            · rw [keys_dictInsert_twice]
              exact keys_extend_dictInsert item _ d.store
            · intro h k hk
              simp only at hk ⊢
              rcases List.mem_append.1 hk with h1 | h1
              · exact List.mem_append_left _ (h k h1)
              · simp only [List.mem_singleton] at h1
                subst h1
                simp

end YtField

namespace YtField

/-- Every probe operation only extends the detector state: store keys
grow by fresh keys only, the request/parameter logs grow by appending,
and raw-read containment in the request log is preserved. -/
theorem step_evolves (env : Env) : ∀ (fuel : Nat) (c : Call) (d : Det),
    DetEvolves d (step env fuel c d).2 := by
  intro fuel
  induction fuel with
  | zero => intro c d; exact DetEvolves.rfl d
  | succ fuel ih =>
      intro c d
      cases c with
      | getItem key =>
          cases hsf : storeFind? d key with
          | some v => simp only [step, hsf]; exact DetEvolves.rfl d
          | none => simp only [step, hsf]; exact ih (.missing key) d
      | missing item =>
          cases hlk : env.FI.lookup? item with
          | none => simp only [step, hlk]; exact evolves_rawResolve env item d
          | some finfo =>
              cases hfn : finfo.func with
              | none =>
                  cases hpt : finfo.particle_type with
                  | true =>
                      simp only [step, hlk, hfn]
                      rw [if_pos hpt]
                      refine ⟨keys_extend_dictInsert item _ d.store,
                        ⟨[item], Eq.refl _⟩, ⟨[], by simp⟩, ?_⟩
                      intro h k hk
                      simp only at hk ⊢
                      rcases List.mem_append.1 hk with h1 | h1
                      · exact List.mem_append_left _ (h k h1)
                      · simp only [List.mem_singleton] at h1
                        rw [h1]
                        simp
                  | false =>
                      simp only [step, hlk, hfn]
                      rw [if_neg (by simp [hpt])]
                      exact evolves_rawResolve env item d
              | some p =>
                  have h1 := ih (.fcall finfo) d
                  cases hc1 : step env fuel (.fcall finfo) d with
                  | mk o d1 =>
                      rw [hc1] at h1
                      cases o with
                      | ok vv =>
                          simp only [step, hlk, hfn, hc1]
                          exact h1.trans (evolves_store_insert d1 item _)
                      | err m => simp only [step, hlk, hfn, hc1]; exact h1
                      | spin => simp only [step, hlk, hfn, hc1]; exact h1
                      | exc e =>
                          cases e with
                          | needsOriginalGrid =>
                              simp only [step, hlk, hfn, hc1]; exact h1
                          | needsDataField l =>
                              simp only [step, hlk, hfn, hc1]; exact h1
                          | needsProperty l =>
                              simp only [step, hlk, hfn, hc1]; exact h1
                          | needsParameter l =>
                              simp only [step, hlk, hfn, hc1]; exact h1
                          | needsGridType ngz flds =>
                              have h2 := ih (.fcall finfo)
                                { detInit (d1.nd + ngz * 2) false with numGhostZones := ngz }
                              cases hc2 : step env fuel (.fcall finfo)
                                  { detInit (d1.nd + ngz * 2) false with numGhostZones := ngz } with
                              | mk o2 nfd1 =>
                                  rw [hc2] at h2
                                  have hnraw : ∀ k ∈ nfd1.rawReads, k ∈ nfd1.requested := by
                                    apply h2.2.2.2
                                    intro k hk
                                    simp [detInit] at hk
                                  cases o2 with
                                  | ok vv =>
                                      cases htr : (if 0 < ngz then trim3 ngz vv else some vv) with
                                      | some w =>
                                          simp only [step, hlk, hfn, hc1, hc2, htr]
                                          exact h1.trans ((evolves_merge_logs d1 nfd1 hnraw).trans
                                            (evolves_store_insert _ item _))
                                      | none =>
                                          simp only [step, hlk, hfn, hc1, hc2, htr]
                                          exact h1
                                  | exc e2 => simp only [step, hlk, hfn, hc1, hc2]; exact h1
                                  | err m2 => simp only [step, hlk, hfn, hc1, hc2]; exact h1
                                  | spin => simp only [step, hlk, hfn, hc1, hc2]; exact h1
      | fcall finfo =>
          cases hca : checkAvailable finfo.validators d.toCtx with
          | some e => simp only [step, hca]; exact DetEvolves.rfl d
          | none =>
              cases hfn : finfo.func with
              | none => simp only [step, hca, hfn]; exact DetEvolves.rfl d
              | some p =>
                  have h1 := ih (.prog p) d
                  cases hc1 : step env fuel (.prog p) d with
                  | mk o d1 =>
                      rw [hc1] at h1
                      cases o with
                      | ok v =>
                          simp only [step, hca, hfn, hc1]
                          obtain ⟨⟨t, ht, hfr⟩, hr, hp, hraw⟩ := h1
                          refine ⟨⟨[], ?_, by simp⟩, hr, hp, hraw⟩
                          rw [map_fst_filter_contains, ht, List.filter_append,
                            filter_contains_self, filter_contains_none _ t hfr]
                      | exc e => simp only [step, hca, hfn, hc1]; exact h1
                      | err m => simp only [step, hca, hfn, hc1]; exact h1
                      | spin => simp only [step, hca, hfn, hc1]; exact h1
      | prog p =>
          cases p with
          | ret v => simp only [step]; exact DetEvolves.rfl d
          | raiseErr m => simp only [step]; exact DetEvolves.rfl d
          | get key k =>
              have h1 := ih (.getItem key) d
              cases hc1 : step env fuel (.getItem key) d with
              | mk o d1 =>
                  rw [hc1] at h1
                  cases o with
                  | ok v =>
                      simp only [step, hc1]
                      exact h1.trans (ih (.prog (k v)) d1)
                  | exc e => simp only [step, hc1]; exact h1
                  | err m => simp only [step, hc1]; exact h1
                  | spin => simp only [step, hc1]; exact h1
          | getParam pname k =>
              have hbase : DetEvolves d
                  { d with requestedParameters := d.requestedParameters ++ [pname] } :=
                ⟨⟨[], by simp, by simp⟩, ⟨[], by simp⟩, ⟨[pname], Eq.refl _⟩, fun h => h⟩
              simp only [step, detGetFieldParameter]
              exact hbase.trans (ih _ _)

end YtField

namespace YtField

/-- Closure of a sample derived field: reads the raw field `"bar"`,
returns a constant. -/
def fooProg : FProg := .get "bar" (fun _ => .ret (.scal 7))

/-- A sample derived field whose closure reads the raw field `"bar"`. -/
def fooSpec : DerivedField :=
  { name := "foo", func := some fooProg, take_log := true, validators := [],
    particle_type := false, units := "", display_name := none }

/-- Environment whose registry holds the derived field `"foo"` and the
raw (`NullFunc`) field `"bar"`. -/
def envFoo : Env :=
  { FI := .base [("foo", fooSpec), ("bar", rawSpec "bar")],
    jit := fun _ _ _ => 0, jitF := fun _ => 0, prand := fun _ => 0 }

/-- C3: evaluating a spec with a non-sentinel closure deletes from the
context every key added during the closure call, so on success the
context's key set is exactly what it was before the call (`__call__`
itself never stores the field's own output key; `__missing__` adds it
afterwards, hence "modulo the output key"). -/
theorem C3_no_key_leak (env : Env) (fuel : Nat) (f : DerivedField) (prog : FProg)
    (d : Det) (v : Val) (d' : Det)
    (hfn : f.func = some prog)
    (h : fieldCall env fuel f d = (.ok v, d')) :
    d'.store.map Prod.fst = d.store.map Prod.fst := by
  cases fuel with
  | zero =>
      exfalso
      simp [fieldCall, step] at h
  | succ fuel =>
      unfold fieldCall at h
      cases hca : checkAvailable f.validators d.toCtx with
      | some e => simp [step, hca] at h
      | none =>
          simp only [step, hca, hfn] at h
          have hev := step_evolves env fuel (.prog prog) d
          cases hc1 : step env fuel (.prog prog) d with
          | mk o d1 =>
              rw [hc1] at hev h
              cases o with
              | ok w =>
                  simp only [Prod.mk.injEq, Outcome.ok.injEq] at h
                  rw [← h.2]
                  obtain ⟨⟨t, ht, hfr⟩, _, _, _⟩ := hev
                  rw [map_fst_filter_contains, ht, List.filter_append,
                    filter_contains_self, filter_contains_none _ t hfr,
                    List.append_nil]
              | exc e => simp at h
              | err m => simp at h
              | spin => simp at h

/-- C3 witness: evaluating `fooSpec` on a fresh probe materializes
`"bar"` inside the call and deletes it again, leaving the key set
empty. -/
theorem C3_witness :
    (fieldCall envFoo 5 fooSpec (detInit 2 false)
      = (.ok (.scal 7),
         { nd := 2, flat := false, numGhostZones := 0, store := [],
           requested := ["bar", "bar"], requestedParameters := [],
           rawReads := ["bar"] })) ∧
    ({ nd := 2, flat := false, numGhostZones := 0,
       store := ([] : List (String × Val)),
       requested := ["bar", "bar"], requestedParameters := [],
       rawReads := ["bar"] } : Det).store.map Prod.fst
      = (detInit 2 false).store.map Prod.fst := by
  constructor
  · rfl
  · exact C3_no_key_leak envFoo 5 fooSpec fooProg (detInit 2 false) _ _ rfl (by rfl)

/-- C2 counterexample: dependency detection for `"foo"`, whose closure
reads exactly one raw field `"bar"`, logs `"bar"` twice — once by
`__missing__` (line 318) and once more inside `_read_data` (line 327) —
so the request log is not duplicate-free. -/
theorem C2_counterexample :
    (step envFoo 6 (.missing "foo") (detInit 2 false)).2.requested = ["bar", "bar"]
    ∧ ¬ ((step envFoo 6 (.missing "foo") (detInit 2 false)).2.requested).Nodup := by
  constructor
  · rfl
  · decide

/-- C2 (amended): the request log grows append-only (first-seen order of
existing entries is preserved), after any probe operation every recorded
raw-field synthesis event — including those of nested ghost-zone probes,
whose logs are merged back — appears in the request log, the merge adds
no duplicates to a duplicate-free log, and a raw (`NullFunc`,
non-particle) field resolved through the read path is appended twice. -/
theorem C2_log_complete (env : Env) (fuel : Nat) (c : Call) (d : Det)
    (h : ∀ k ∈ d.rawReads, k ∈ d.requested) :
    (∃ t, (step env fuel c d).2.requested = d.requested ++ t) ∧
    (∀ k ∈ (step env fuel c d).2.rawReads, k ∈ (step env fuel c d).2.requested) ∧
    (∀ xs ys : List String, xs.Nodup → (mergeNoDup xs ys).Nodup) ∧
    (∀ (fuel0 : Nat) (item : String) (d0 : Det) (f : DerivedField),
      env.FI.lookup? item = some f → f.func = none → f.particle_type = false →
      assocFind item d0.store = none →
      (step env (fuel0+1) (.missing item) d0).2.requested
        = d0.requested ++ [item] ++ [item]) := by
  refine ⟨(step_evolves env fuel c d).2.1, (step_evolves env fuel c d).2.2.2 h,
    fun xs ys hnd => mergeNoDup_nodup xs ys hnd, ?_⟩
  intro fuel0 item d0 f hlk hfn hpt hsf
  simp only [step, hlk, hfn]
  rw [if_neg (by simp [hpt])]
  simp only [rawResolve, storeFind?]
  simp only [hsf]
  simp only [readData]
  simp only [hlk]
  rw [if_neg (by simp [hpt])]

end YtField

namespace YtField

/-- C2 witness: the amended log properties instantiated on a fresh probe
resolving `"foo"`. -/
theorem C2_witness :
    (∀ k ∈ (detInit 2 false).rawReads, k ∈ (detInit 2 false).requested) ∧
    (∃ t, (step envFoo 6 (.missing "foo") (detInit 2 false)).2.requested
        = (detInit 2 false).requested ++ t) :=
  ⟨fun k hk => by simp [detInit] at hk,
   (C2_log_complete envFoo 6 (.missing "foo") (detInit 2 false)
      (fun k hk => by simp [detInit] at hk)).1⟩

/-- C9: on a probe, `ValidateDataField` always passes without consulting
the on-disk field list, and `ValidateParameter` always passes because
`has_field_parameter` reports every parameter available; consequently no
validator chain run on a probe can fail with `NeedsDataField` or
`NeedsParameter`. -/
theorem C9_probe_never_blocked (d : Det) (fs ps : List String) :
    runValidator (.dataField fs) d.toCtx = none ∧
    runValidator (.param ps) d.toCtx = none ∧
    (∀ (vs : List FieldValidator) (e : VException),
      checkAvailable vs d.toCtx = some e →
      (∀ l, e ≠ .needsDataField l) ∧ (∀ l, e ≠ .needsParameter l)) := by
  refine ⟨by simp [runValidator, Det.toCtx], by simp [runValidator, Det.toCtx], ?_⟩
  intro vs
  induction vs with
  | nil => intro e he; simp [checkAvailable] at he
  | cons v rest ih =>
      intro e he
      simp only [checkAvailable] at he
      cases hrv : runValidator v d.toCtx with
      | none => rw [hrv] at he; exact ih e he
      | some e2 =>
          rw [hrv] at he
          simp only [Option.some.injEq] at he
          subst he
          cases v with
          | param ps2 => simp [runValidator, Det.toCtx] at hrv
          | dataField fs2 => simp [runValidator, Det.toCtx] at hrv
          | property ps2 =>
              simp only [runValidator] at hrv
              split at hrv
              · cases hrv
              · injection hrv with h3
                subst h3
                exact ⟨fun l hh => by simp at hh, fun l hh => by simp at hh⟩
          | spatial g2 fs2 =>
              simp only [runValidator] at hrv
              split at hrv
              · injection hrv with h3
                subst h3
                exact ⟨fun l hh => by simp at hh, fun l hh => by simp at hh⟩
              · split at hrv
                · cases hrv
                · injection hrv with h3
                  subst h3
                  exact ⟨fun l hh => by simp at hh, fun l hh => by simp at hh⟩
          | gridType => simp [runValidator, Det.toCtx] at hrv

/-- C9 witness: a spatial validator can still fail on a (flat) probe,
but the signal is a `NeedsGridType`, never a `NeedsDataField` or
`NeedsParameter`. -/
theorem C9_witness :
    (checkAvailable [.spatial 2 []] (detInit 3 true).toCtx
       = some (.needsGridType 2 [])) ∧
    (∀ l, (VException.needsGridType 2 []) ≠ .needsDataField l) :=
  ⟨rfl, ((C9_probe_never_blocked (detInit 3 true) [] []).2.2 [.spatial 2 []]
      (.needsGridType 2 []) rfl).1⟩

end YtField

namespace YtField

/-- C1: resolving a key whose spec carries a `SpatialShape(g)` validator
with `g > 0` on a fresh cubic probe of side `N` raises
`NeedsGridType(g)`, builds a nested probe of side `N + 2g`, re-runs the
spec's evaluation on it, and strips the outer `g`-cell border on every
axis, so the value stored under the key and returned has shape
`(N, N, N)`; the nested logs are merged back without duplicating
existing entries. -/
theorem C1_ghost_zone_widening (env : Env) (fuel : Nat) (item : String)
    (f : DerivedField) (prog : FProg) (g : Nat) (flds : List String)
    (N : Nat) (h : Nat → Nat → Nat → ℚ) (nfd1 : Det)
    (hlk : env.FI.lookup? item = some f)
    (hfn : f.func = some prog)
    (hv : f.validators = [.spatial g flds])
    (hg : 0 < g)
    (hnest : step env (fuel+1) (.fcall f)
        { detInit (N + g * 2) false with numGhostZones := g }
      = (.ok (.grid3 (N + g * 2) h), nfd1)) :
    detMissing env (fuel+2) item (detInit N false)
      = (.ok (.grid3 N (fun i j k => h (i + g) (j + g) (k + g))),
         { detInit N false with
            store := [(item, .grid3 N (fun i j k => h (i + g) (j + g) (k + g)))],
            requested := mergeNoDup [] nfd1.requested,
            requestedParameters := mergeNoDup [] nfd1.requestedParameters,
            rawReads := nfd1.rawReads }) := by
  have hout : step env (fuel+1) (.fcall f) (detInit N false)
      = (.exc (.needsGridType g flds), detInit N false) := by
    have hgle : ¬ g ≤ 0 := by omega
    simp [step, hv, checkAvailable, runValidator, Det.toCtx, detInit, hgle]
  unfold detMissing
  rw [step]
  simp only [hlk, hfn, hout]
  simp only [detInit] at hnest ⊢
  simp only [hnest]
  simp only [hg, if_pos, trim3]
  rw [show N + g * 2 - 2 * g = N from by omega]
  simp [dictInsert]

end YtField

namespace YtField

def gfun : Nat → Nat → Nat → ℚ := fun _ _ _ => 5

def gSpec : DerivedField :=
  { name := "gfield", func := some (.ret (.grid3 8 gfun)), take_log := false,
    validators := [.spatial 2 ["D"]], particle_type := false, units := "",
    display_name := none }

def envC1 : Env :=
  { FI := .base [("gfield", gSpec)], jit := fun _ _ _ => 0, jitF := fun _ => 0,
    prand := fun _ => 0 }

def nfdC1 : Det := { detInit (4 + 2 * 2) false with numGhostZones := 2 }

/-- C1 witness: `g = 2`, `N = 4` — the internal probe has side
`4 + 2*2 = 8` and the result is trimmed back to side 4. -/
theorem C1_witness :
    (0 < 2) ∧
    (step envC1 2 (.fcall gSpec) { detInit (4 + 2 * 2) false with numGhostZones := 2 }
      = (.ok (.grid3 (4 + 2 * 2) gfun), nfdC1)) ∧
    detMissing envC1 3 "gfield" (detInit 4 false)
      = (.ok (.grid3 4 (fun i j k => gfun (i + 2) (j + 2) (k + 2))),
         { detInit 4 false with
            store := [("gfield", .grid3 4 (fun i j k => gfun (i + 2) (j + 2) (k + 2)))],
            requested := mergeNoDup [] nfdC1.requested,
            requestedParameters := mergeNoDup [] nfdC1.requestedParameters,
            rawReads := nfdC1.rawReads }) :=
  ⟨by decide, rfl,
   C1_ghost_zone_widening envC1 1 "gfield" gSpec (.ret (.grid3 8 gfun)) 2 ["D"] 4 gfun
     nfdC1 rfl rfl rfl (by decide) rfl⟩

def cfun : Nat → Nat → Nat → ℚ := fun _ _ _ => 1

def spProg : FProg := .ret (.grid3 3 cfun)

def spSpec : DerivedField :=
  { name := "sp0", func := some spProg, take_log := true,
    validators := [.spatial 0 []], particle_type := false, units := "",
    display_name := none }

def envC10 : Env :=
  { FI := .base [("sp0", spSpec)], jit := fun _ _ _ => 0, jitF := fun _ => 0,
    prand := fun _ => 0 }

/-- C10: whenever `__missing__` catches a `NeedsGridType(g)` signal, the
nested probe it constructs is cubic/spatial (`flat = False`, even when
the outer probe is flat) and carries exactly `g` ghost zones, so the
`SpatialShape(g)` validator that raised the signal passes on the nested
probe (at most one level of nesting per spatial signal); when `g = 0`
the nested result is stored without border trimming. -/
theorem C10_nested_probe_spatial (env : Env) (fuel : Nat) (item : String)
    (f : DerivedField) (prog : FProg) (g : Nat) (flds : List String)
    (d d1 : Det)
    (hlk : env.FI.lookup? item = some f)
    (hfn : f.func = some prog)
    (hout : step env (fuel+1) (.fcall f) d = (.exc (.needsGridType g flds), d1)) :
    ({ detInit (d1.nd + g * 2) false with numGhostZones := g } : Det).flat = false ∧
    ({ detInit (d1.nd + g * 2) false with numGhostZones := g } : Det).numGhostZones = g ∧
    runValidator (.spatial g flds)
      ({ detInit (d1.nd + g * 2) false with numGhostZones := g } : Det).toCtx = none ∧
    (g = 0 → ∀ (v : Val) (nfd1 : Det),
      step env (fuel+1) (.fcall f)
          { detInit (d1.nd + g * 2) false with numGhostZones := g } = (.ok v, nfd1) →
      detMissing env (fuel+2) item d
        = (.ok (if d1.flat then ravel v else v),
           { d1 with
              store := dictInsert item (if d1.flat then ravel v else v) d1.store,
              requested := mergeNoDup d1.requested nfd1.requested,
              requestedParameters := mergeNoDup d1.requestedParameters nfd1.requestedParameters,
              rawReads := d1.rawReads ++ nfd1.rawReads })) := by
  refine ⟨rfl, rfl, by simp [runValidator, Det.toCtx, detInit], ?_⟩
  intro hg0 v nfd1 hnest
  subst hg0
  unfold detMissing
  rw [step]
  simp only [hlk, hfn, hout]
  simp only [detInit] at hnest ⊢
  simp only [hnest]
  simp

def nfdC10 : Det := { detInit ((detInit 3 true).nd + 0 * 2) false with numGhostZones := 0 }

/-- C10 witness: a flat outer probe with a `SpatialShape(0)` validator —
the signal carries `g = 0`, the nested probe is non-flat, and the result
is stored untrimmed (raveled, because the outer probe is flat). -/
theorem C10_witness :
    (step envC10 2 (.fcall spSpec) (detInit 3 true)
       = (.exc (.needsGridType 0 []), detInit 3 true)) ∧
    detMissing envC10 3 "sp0" (detInit 3 true)
      = (.ok (if (detInit 3 true).flat then ravel (.grid3 3 cfun) else .grid3 3 cfun),
         { (detInit 3 true) with
            store := dictInsert "sp0"
              (if (detInit 3 true).flat then ravel (.grid3 3 cfun) else .grid3 3 cfun)
              (detInit 3 true).store,
            requested := mergeNoDup (detInit 3 true).requested nfdC10.requested,
            requestedParameters := mergeNoDup (detInit 3 true).requestedParameters
              nfdC10.requestedParameters,
            rawReads := (detInit 3 true).rawReads ++ nfdC10.rawReads }) :=
  ⟨rfl, (C10_nested_probe_spatial envC10 1 "sp0" spSpec spProg 0 [] (detInit 3 true)
      (detInit 3 true) rfl rfl rfl).2.2.2 rfl (.grid3 3 cfun) nfdC10 rfl⟩

end YtField

namespace YtField

/-- C4: each generated partial-derivative closure computes, at every
interior index, the value at `index+1` minus the value at `index-1`
along its axis divided by twice the cell spacing along that axis
(`dx`/`dy`/`dz` respectively), zero-filling the outer 1-cell border;
the gradient-magnitude closure computes the (abstract float) square
root of the sum of squares of the three partials, pointwise. -/
theorem C4_gradient_formulas (env : Env) (fuel : Nat) (field : String)
    (n : Nat) (fF : Nat → Nat → Nat → ℚ) (vdx vdy vdz : Val)
    (nx ny nz : Nat) (fgx fgy fgz : Nat → Nat → Nat → ℚ) (sq : ℚ → ℚ)
    (d : Det)
    (hF : storeFind? d field = some (.grid3 n fF))
    (hdx : storeFind? d "dx" = some vdx)
    (hdy : storeFind? d "dy" = some vdy)
    (hdz : storeFind? d "dz" = some vdz)
    (hgx : storeFind? d ("Grad_" ++ field ++ "_x") = some (.grid3 nx fgx))
    (hgy : storeFind? d ("Grad_" ++ field ++ "_y") = some (.grid3 ny fgy))
    (hgz : storeFind? d ("Grad_" ++ field ++ "_z") = some (.grid3 nz fgz)) :
    runProg env (fuel+3) (gradxProg field) d
      = (.ok (.grid3 n (fun i j k =>
          if 1 ≤ i ∧ i < n - 1 ∧ 1 ≤ j ∧ j < n - 1 ∧ 1 ≤ k ∧ k < n - 1
          then (fF (i+1) j k - fF (i-1) j k) / (2 * flat0 vdx) else 0)), d) ∧
    runProg env (fuel+3) (gradyProg field) d
      = (.ok (.grid3 n (fun i j k =>
          if 1 ≤ i ∧ i < n - 1 ∧ 1 ≤ j ∧ j < n - 1 ∧ 1 ≤ k ∧ k < n - 1
          then (fF i (j+1) k - fF i (j-1) k) / (2 * flat0 vdy) else 0)), d) ∧
    runProg env (fuel+3) (gradzProg field) d
      = (.ok (.grid3 n (fun i j k =>
          if 1 ≤ i ∧ i < n - 1 ∧ 1 ≤ j ∧ j < n - 1 ∧ 1 ≤ k ∧ k < n - 1
          then (fF i j (k+1) - fF i j (k-1)) / (2 * flat0 vdz) else 0)), d) ∧
    runProg env (fuel+4) (gradMagProg sq field) d
      = (.ok (.grid3 nx (fun i j k =>
          sq (fgx i j k ^ 2 + fgy i j k ^ 2 + fgz i j k ^ 2))), d) := by
  refine ⟨?_, ?_, ?_, ?_⟩
  · unfold runProg gradxProg
    simp only [step, hF, hdx, gradxCompute]
    simp only [Prod.mk.injEq, Outcome.ok.injEq, Val.grid3.injEq]
    refine ⟨⟨by trivial, ?_⟩, by trivial⟩
    funext i j k
    simp only [NArr.setSlice, NArr.zeros, NArr.sub, NArr.slice, NArr.divs]
    split_ifs with hc
    · obtain ⟨h1, h2, h3, h4, h5, h6⟩ := hc
      rw [show i - 1 + 2 = i + 1 from by omega, show j - 1 + 1 = j from by omega,
          show k - 1 + 1 = k from by omega]
      simp
    · rfl
  · unfold runProg gradyProg
    simp only [step, hF, hdy, gradyCompute]
    simp only [Prod.mk.injEq, Outcome.ok.injEq, Val.grid3.injEq]
    refine ⟨⟨by trivial, ?_⟩, by trivial⟩
    funext i j k
    simp only [NArr.setSlice, NArr.zeros, NArr.sub, NArr.slice, NArr.divs]
    split_ifs with hc
    · obtain ⟨h1, h2, h3, h4, h5, h6⟩ := hc
      rw [show i - 1 + 1 = i from by omega, show j - 1 + 2 = j + 1 from by omega,
          show k - 1 + 1 = k from by omega]
      simp
    · rfl
  · unfold runProg gradzProg
    simp only [step, hF, hdz, gradzCompute]
    simp only [Prod.mk.injEq, Outcome.ok.injEq, Val.grid3.injEq]
    refine ⟨⟨by trivial, ?_⟩, by trivial⟩
    funext i j k
    simp only [NArr.setSlice, NArr.zeros, NArr.sub, NArr.slice, NArr.divs]
    split_ifs with hc
    · obtain ⟨h1, h2, h3, h4, h5, h6⟩ := hc
      rw [show i - 1 + 1 = i from by omega, show j - 1 + 1 = j from by omega,
          show k - 1 + 2 = k + 1 from by omega]
      simp
    · rfl
  · unfold runProg gradMagProg
    simp only [step, hgx, hgy, hgz, gradMagCompute, NArr.pow2, NArr.add, NArr.sqrtMap]

end YtField

namespace YtField

def onesf : Nat → Nat → Nat → ℚ := fun _ _ _ => 1

def d4 : Det :=
  { detInit 3 false with store :=
      [("D", .grid3 3 onesf), ("dx", .scal 1), ("dy", .scal 1), ("dz", .scal 1),
       ("Grad_D_x", .grid3 3 onesf), ("Grad_D_y", .grid3 3 onesf),
       ("Grad_D_z", .grid3 3 onesf)] }

/-- C4 witness: the x-derivative formula instantiated on a concrete
side-3 probe store. -/
theorem C4_witness :
    (storeFind? d4 "D" = some (.grid3 3 onesf)) ∧
    runProg envFoo 7 (gradxProg "D") d4
      = (.ok (.grid3 3 (fun i j k =>
          if 1 ≤ i ∧ i < 3 - 1 ∧ 1 ≤ j ∧ j < 3 - 1 ∧ 1 ≤ k ∧ k < 3 - 1
          then (onesf (i+1) j k - onesf (i-1) j k) / (2 * flat0 (.scal 1)) else 0)), d4) :=
  ⟨rfl, (C4_gradient_formulas envFoo 4 "D" 3 onesf (.scal 1) (.scal 1) (.scal 1)
      3 3 3 onesf onesf onesf id d4 rfl rfl rfl rfl rfl rfl rfl).1⟩

end YtField

namespace YtField

theorem grad_ne_xy (f : String) : "Grad_" ++ f ++ "_x" ≠ "Grad_" ++ f ++ "_y" := by
  intro h
  rw [String.ext_iff] at h
  simp only [String.data_append] at h
  have h2 := List.append_cancel_left h
  revert h2
  decide

theorem grad_ne_xz (f : String) : "Grad_" ++ f ++ "_x" ≠ "Grad_" ++ f ++ "_z" := by
  intro h
  rw [String.ext_iff] at h
  simp only [String.data_append] at h
  have h2 := List.append_cancel_left h
  revert h2
  decide

theorem grad_ne_yz (f : String) : "Grad_" ++ f ++ "_y" ≠ "Grad_" ++ f ++ "_z" := by
  intro h
  rw [String.ext_iff] at h
  simp only [String.data_append] at h
  have h2 := List.append_cancel_left h
  revert h2
  decide

theorem grad_ne_sfx (f s : String) (hs : s.length = 2) :
    "Grad_" ++ f ++ s ≠ "Grad_" ++ f := by
  intro h
  have h2 := congrArg String.length h
  simp only [String.length_append, hs] at h2
  omega

theorem lookupLocal_setEntry (R : FieldInfoContainer) (k k' : String)
    (f : DerivedField) :
    (R.setEntry k f).lookupLocal k' = if k = k' then some f else R.lookupLocal k' := by
  cases R <;>
    simp [FieldInfoContainer.setEntry, FieldInfoContainer.lookupLocal,
      FieldInfoContainer.entries, assocFind_dictInsert]

theorem containsKey_of_lookupLocal (R : FieldInfoContainer) (k : String)
    (f : DerivedField) (h : R.lookupLocal k = some f) : R.containsKey k = true := by
  cases R <;>
    simp only [FieldInfoContainer.lookupLocal, FieldInfoContainer.entries] at h <;>
    simp [FieldInfoContainer.containsKey, h]

/-- C5: `add_grad` on base field `F` installs exactly the 4 resolvable
entries `Grad_F_x`, `Grad_F_y`, `Grad_F_z` and `Grad_F`: each axis entry
carries a `SpatialShape(1, [F])` validator, the magnitude entry carries
no validator, and every other key resolves exactly as before. -/
theorem C5_gradient_registration (sq : ℚ → ℚ) (R : FieldInfoContainer)
    (field : String) (dn : Option String) :
    ((addGrad sq R field dn).lookupLocal ("Grad_" ++ field ++ "_x")
        = some (gradAxSpec field ("Grad_" ++ field ++ "_x") "x" dn (gradxProg field))) ∧
    ((addGrad sq R field dn).lookupLocal ("Grad_" ++ field ++ "_y")
        = some (gradAxSpec field ("Grad_" ++ field ++ "_y") "y" dn (gradyProg field))) ∧
    ((addGrad sq R field dn).lookupLocal ("Grad_" ++ field ++ "_z")
        = some (gradAxSpec field ("Grad_" ++ field ++ "_z") "z" dn (gradzProg field))) ∧
    ((addGrad sq R field dn).lookupLocal ("Grad_" ++ field)
        = some (gradMagSpec field dn sq)) ∧
    (gradAxSpec field ("Grad_" ++ field ++ "_x") "x" dn (gradxProg field)).validators
        = [.spatial 1 [field]] ∧
    (gradAxSpec field ("Grad_" ++ field ++ "_y") "y" dn (gradyProg field)).validators
        = [.spatial 1 [field]] ∧
    (gradAxSpec field ("Grad_" ++ field ++ "_z") "z" dn (gradzProg field)).validators
        = [.spatial 1 [field]] ∧
    (gradMagSpec field dn sq).validators = [] ∧
    ((addGrad sq R field dn).containsKey ("Grad_" ++ field ++ "_x") = true) ∧
    ((addGrad sq R field dn).containsKey ("Grad_" ++ field ++ "_y") = true) ∧
    ((addGrad sq R field dn).containsKey ("Grad_" ++ field ++ "_z") = true) ∧
    ((addGrad sq R field dn).containsKey ("Grad_" ++ field) = true) ∧
    (∀ k, k ≠ "Grad_" ++ field ++ "_x" → k ≠ "Grad_" ++ field ++ "_y" →
      k ≠ "Grad_" ++ field ++ "_z" → k ≠ "Grad_" ++ field →
      (addGrad sq R field dn).lookupLocal k = R.lookupLocal k) := by
  have hx : (addGrad sq R field dn).lookupLocal ("Grad_" ++ field ++ "_x")
      = some (gradAxSpec field ("Grad_" ++ field ++ "_x") "x" dn (gradxProg field)) := by
    simp only [addGrad]
    rw [lookupLocal_setEntry, if_neg (Ne.symm (grad_ne_sfx field "_x" rfl)),
      lookupLocal_setEntry, if_neg (Ne.symm (grad_ne_xz field)),
      lookupLocal_setEntry, if_neg (Ne.symm (grad_ne_xy field)),
      lookupLocal_setEntry, if_pos rfl]
  have hy : (addGrad sq R field dn).lookupLocal ("Grad_" ++ field ++ "_y")
      = some (gradAxSpec field ("Grad_" ++ field ++ "_y") "y" dn (gradyProg field)) := by
    simp only [addGrad]
    rw [lookupLocal_setEntry, if_neg (Ne.symm (grad_ne_sfx field "_y" rfl)),
      lookupLocal_setEntry, if_neg (Ne.symm (grad_ne_yz field)),
      lookupLocal_setEntry, if_pos rfl]
  have hz : (addGrad sq R field dn).lookupLocal ("Grad_" ++ field ++ "_z")
      = some (gradAxSpec field ("Grad_" ++ field ++ "_z") "z" dn (gradzProg field)) := by
    simp only [addGrad]
    rw [lookupLocal_setEntry, if_neg (Ne.symm (grad_ne_sfx field "_z" rfl)),
      lookupLocal_setEntry, if_pos rfl]
  have hm : (addGrad sq R field dn).lookupLocal ("Grad_" ++ field)
      = some (gradMagSpec field dn sq) := by
    simp only [addGrad]
    rw [lookupLocal_setEntry, if_pos rfl]
  refine ⟨hx, hy, hz, hm, rfl, rfl, rfl, rfl,
    containsKey_of_lookupLocal _ _ _ hx, containsKey_of_lookupLocal _ _ _ hy,
    containsKey_of_lookupLocal _ _ _ hz, containsKey_of_lookupLocal _ _ _ hm, ?_⟩
  intro k h1 h2 h3 h4
  simp only [addGrad]
  rw [lookupLocal_setEntry, if_neg (Ne.symm h4), lookupLocal_setEntry,
    if_neg (Ne.symm h3), lookupLocal_setEntry, if_neg (Ne.symm h2),
    lookupLocal_setEntry, if_neg (Ne.symm h1)]

/-- C5 witness: registering gradients for `"Density"` leaves an
unrelated key untouched. -/
theorem C5_witness :
    ("other" ≠ "Grad_" ++ "Density" ++ "_x") ∧
    (addGrad id (FieldInfoContainer.base []) "Density" none).lookupLocal "other"
      = (FieldInfoContainer.base []).lookupLocal "other" :=
  ⟨by decide,
   (C5_gradient_registration id (.base []) "Density" none).2.2.2.2.2.2.2.2.2.2.2.2
     "other" (by decide) (by decide) (by decide) (by decide)⟩

end YtField
